import Mathlib

/-!
Shallow embedding of the shift-schedule generator
(`src/backend/scripts/optimizer/generate_schedule.py`).

The generator reads a request (members, days, coverage targets, constraint
options, pre-existing "pinned" assignments), builds a CP-SAT model with one
boolean indicator per (member, day, shift-code), records structured conflicts
when pinned data collides with a rule, solves, and formats the solution.

The solver itself is external (OR-Tools CP-SAT): the contract is that an
`optimal` or `feasible` status comes with an assignment of values satisfying
every emitted constraint.  We therefore embed the *model builder* faithfully
(the set of emitted constraints and emitted conflicts), and treat a "solved
output" as any valuation of the decision variables that satisfies every
emitted constraint.

Dates are kept as their canonical ISO `YYYY-MM-DD` strings; for such strings
calendar order coincides with lexicographic character order, which we use to
embed the `day_dates[d] > generation_end_date` comparison.
-/

/-- The fixed shift-code enumeration (`SHIFT_CODES` in the source). -/
inductive Code where
  | EARLY | DAY | LATE | NIGHT | NIGHT_AFTER | OFF
deriving DecidableEq, Repr

open Code

/-- Source constant `SHIFT_CODES`. -/
def SHIFT_CODES : List Code := [EARLY, DAY, LATE, NIGHT, NIGHT_AFTER, OFF]

/-- Source constant `WORK_SHIFT_CODES`: the codes subject to coverage targets. -/
def WORK_SHIFT_CODES : List Code := [EARLY, DAY, LATE, NIGHT]

/-- Position of each code in the alphabetical order of its Python string
(`"DAY" < "EARLY" < "LATE" < "NIGHT" < "NIGHT_AFTER" < "OFF"`), used to embed
`sorted({pinned_code, code})`. -/
def codeSortKey : Code → Nat
  | DAY => 0
  | EARLY => 1
  | LATE => 2
  | NIGHT => 3
  | NIGHT_AFTER => 4
  | OFF => 5

/-- `sorted({a, b})` from source line 365, for the two distinct codes of an
`existing_assignment_conflict`. -/
def sortCodes (a b : Code) : List Code :=
  if codeSortKey a ≤ codeSortKey b then [a, b] else [b, a]

/-- Lexicographic order on character lists; on canonical ISO date strings this
is exactly calendar order of the parsed dates. -/
def charListLt : List Char → List Char → Bool
  | [], [] => false
  | [], _ :: _ => true
  | _ :: _, [] => false
  | a :: as, b :: bs => if a < b then true else if b < a then false else charListLt as bs

/-- String comparison used to embed `datetime.date` comparison of canonical
ISO dates. -/
def isoDateLt (a b : String) : Bool := charListLt a.data b.data

/-!
## Shift-category inference (source lines 131-175)

`infer_shift_category` first consults an explicit shift code; when none is
usable it falls back to the start/end time pair.  Times are handled in minutes
(`to_minutes` parses "H:M" to `hours * 60 + minutes`); we embed the time-pair
branch directly over minute counts.
-/

/-- Time-pair branch of `infer_shift_category` (source lines 154-175), over
already-parsed minute counts. -/
def infer_shift_category_from_times (start_minutes end_minutes : Nat) : Code :=
  if end_minutes < start_minutes then NIGHT
  else if end_minutes ≥ 20 * 60 then LATE
  else if 7 * 60 ≤ start_minutes ∧ start_minutes ≤ 7 * 60 + 30 then EARLY
  else if 8 * 60 ≤ start_minutes ∧ end_minutes ≤ 18 * 60 then DAY
  else if start_minutes ≥ 15 * 60 then NIGHT
  else if start_minutes ≥ 6 * 60 ∧ start_minutes < 8 * 60 then EARLY
  else if end_minutes ≥ 18 * 60 then LATE
  else DAY

/-- Modelled from the spec wording of the category precedence: first matching
rule wins, in the order: end-before-start ⇒ NIGHT; end at/after 20:00 ⇒ LATE;
start within [7:00, 7:30] ⇒ EARLY; start ≥ 8:00 and end ≤ 18:00 ⇒ DAY;
start ≥ 15:00 ⇒ NIGHT; start in [6:00, 8:00) ⇒ EARLY; end ≥ 18:00 ⇒ LATE;
else DAY.  Times in minutes since midnight. -/
def inferShiftCategoryRules : List ((Nat → Nat → Bool) × Code) :=
  [ (fun s e => e < s, NIGHT)
  , (fun _ e => 1200 ≤ e, LATE)
  , (fun s _ => 420 ≤ s && s ≤ 450, EARLY)
  , (fun s e => 480 ≤ s && e ≤ 1080, DAY)
  , (fun s _ => 900 ≤ s, NIGHT)
  , (fun s _ => 360 ≤ s && s < 480, EARLY)
  , (fun _ e => 1080 ≤ e, LATE) ]

/-- First-match semantics over a rule list. -/
def firstMatch : List ((Nat → Nat → Bool) × Code) → Nat → Nat → Code
  | [], _, _ => DAY
  | r :: rs, s, e => if r.1 s e then r.2 else firstMatch rs s e

/-- Modelled from the spec wording: apply the first matching rule, default DAY. -/
def infer_shift_category_spec (startM endM : Nat) : Code :=
  firstMatch inferShiftCategoryRules startM endM

/-!
## Minimum-days-off resolution (source lines 239-265)

`clamp_min_off_days(raw, fallback)` returns `fallback` when the raw value is
missing or unparsable, and otherwise clamps the parsed integer to
`[0, num_days]`.  `none` here stands for both a missing and an unparsable raw
value (both take the `fallback` branch in the source).
-/

/-- Source `clamp_min_off_days` (lines 239-246). -/
def clamp_min_off_days (raw : Option Int) (fallback : Int) (num_days : Nat) : Int :=
  match raw with
  | none => fallback
  | some v => max 0 (min v (num_days : Int))

/-- The four resolved minimum-off-day values (`base` is `base_min_off`, also
used as `default_min_off` for unrecognized employment types). -/
structure MinOffResolution where
  base : Int
  full_time : Int
  part_time : Int
  contract : Int
deriving DecidableEq, Repr

/-- Source lines 248-265: resolution chain for the per-category minimums. -/
def resolve_min_off (general ft pt ct : Option Int) (num_days : Nat) : MinOffResolution :=
  let base := clamp_min_off_days general 0 num_days
  let ftv := clamp_min_off_days ft base num_days
  let pt_fallback : Int := if general.isSome then base else 10
  let ptv := clamp_min_off_days pt pt_fallback num_days
  let ctv := clamp_min_off_days ct ptv num_days
  ⟨base, ftv, ptv, ctv⟩

/-!
## Input data model (source lines 67-74, 182-307)

Members carry post-normalization data: `allowed_shift_codes` is the result of
`normalize_allowed_codes` (`none` = absent/non-list = all codes allowed), and
the schedule preferences are flattened to the truthy keys of `fixed_days_off`
plus the `custom_dates_off` list.  Dates and weekday labels are canonical ISO
strings and weekday keys, respectively; the weekday labels are the values the
source derives from the calendar (`WEEKDAY_KEYS[date.weekday()]`).
-/

/-- One member of the roster (source dataclass `Member`, with the schedule
preferences flattened to the parts `build_model` reads). -/
structure Member where
  id : Int
  employment_type : String
  can_night_shift : Bool
  allowed_shift_codes : Option (List Code)
  fixed_days_off : List String
  custom_dates_off : List String
deriving DecidableEq, Repr

/-- One entry of `existing_assignments`.  The source drops entries whose shift
code is not one of the six valid strings before any processing (lines
338-340); such entries are not representable here. -/
structure ExistingAssignment where
  user_id : Int
  date : String
  shift_code : Code
deriving DecidableEq, Repr

/-- The `coverage_requirements` payload (lower-case keys `early`/`day`/`late`/
`night`, optional legacy `day_desired`). -/
structure CoverageRequirements where
  early : Nat := 0
  day : Nat := 0
  late : Nat := 0
  night : Nat := 0
  day_desired : Option Int := none
deriving DecidableEq, Repr

/-- The `constraints` payload, with the defaults the source applies
(lines 236-270, 295-304). -/
structure ScheduleOptions where
  max_nights_per_member : Int := 7
  min_off_days : Option Int := none
  min_off_days_full_time : Option Int := none
  min_off_days_part_time : Option Int := none
  min_off_days_contract : Option Int := none
  holiday_dates : List String := []
  generation_end_date : Option String := none
  desired_day_headcount : Option Int := none
  max_consecutive_workdays : Option Int := none
  enforce_night_after_rest : Bool := true
  forbid_late_to_early : Bool := true
  limit_fulltime_repeat : Bool := true
  balance_workload : Bool := true
deriving DecidableEq, Repr

/-- The canonical request handed to `build_model`. -/
structure BuildInput where
  members : List Member
  days : List String
  weekday_labels : List String
  coverage : CoverageRequirements
  options : ScheduleOptions
  existing_assignments : List ExistingAssignment

def defaultMember : Member := ⟨0, "", true, none, [], []⟩

def BuildInput.numMembers (inp : BuildInput) : Nat := inp.members.length

def BuildInput.numDays (inp : BuildInput) : Nat := inp.days.length

def BuildInput.dayStr (inp : BuildInput) (d : Nat) : String := inp.days.getD d ""

def BuildInput.memberAt (inp : BuildInput) (u : Nat) : Member := inp.members.getD u defaultMember

/-- `member_index` lookup (source line 311).  The source builds a dict, which
for duplicate member ids keeps the last occurrence; we look up the first and
assume ids are distinct (the claims never involve duplicate ids). -/
def BuildInput.memberIndexOf (inp : BuildInput) (mid : Int) : Option Nat :=
  inp.members.findIdx? (fun m => m.id == mid)

/-- `day_index` lookup (source line 312); same remark as `memberIndexOf`. -/
def BuildInput.dayIndexOf (inp : BuildInput) (date : String) : Option Nat :=
  inp.days.indexOf? date

/-- Generation day test: `generation_end_date` absent, or the day's date is
not after the cutoff (source lines 322, 418, 425). -/
def BuildInput.isGenerationDay (inp : BuildInput) (d : Nat) : Bool :=
  match inp.options.generation_end_date with
  | none => true
  | some g => !(isoDateLt g (inp.dayStr d))

/-!
## Conflict records (the side output of the conflict reconciler)
-/

/-- Structured conflict records; one constructor per `type` string the source
appends to `conflicts`, carrying the same fields. -/
inductive Conflict where
  | allowedShift (member_id : Int) (date : String) (shift_code : Code)
  | existingAssignment (member_id : Int) (date : String) (codes : List Code)
  | fixedDayOff (member_id : Int) (date : String) (shift_code : Code)
  | maxConsecutiveWorkdays (member_id : Int) (start_date end_date : String) (limit : Nat)
  | nightAfterPredecessor (member_id : Int) (date previous_date : String) (locked_shift : Code)
  | nightFollowUp (member_id : Int) (date next_date : String) (locked_shift : Code)
  | nightRest (member_id : Int) (date rest_date : String) (locked_shift : Code)
  | nightEligibility (member_id : Int) (date : String)
  | lateToEarly (member_id : Int) (date next_date : String)
  | repeatLimit (member_id : Int) (start_date : String) (shift_code : Code)
  | nightQuota (member_id : Int) (nights_locked : Nat) (max_allowed : Int)
  | offRequirementShortfall (member_id : Int) (shortfall : Nat) (required : Int)
deriving DecidableEq, Repr

/-- Recognizer for `existing_assignment_conflict` records. -/
def isExistingAssignmentConflict : Conflict → Bool
  | .existingAssignment _ _ _ => true
  | _ => false

/-- Recognizer for `night_eligibility_conflict` records. -/
def isNightEligibilityConflict : Conflict → Bool
  | .nightEligibility _ _ => true
  | _ => false

/-!
## Intake of existing assignments (source lines 327-372)

Entries are folded in order.  For each valid entry: an allow-list check
against the member's *raw* `allowed_shift_codes` list (not the working set
that later adds OFF and NIGHT_AFTER) may record an `allowed_shift_conflict`;
then the entry either becomes the pinned code for its (member, day) cell, is
silently ignored when it repeats the pinned code, or records an
`existing_assignment_conflict` when it contradicts it.
-/

/-- Source lines 346-355: the allow-list check the intake applies to each
entry, against the member's raw explicit list. -/
def allowedConflictsFor (inp : BuildInput) (u d : Nat) (c : Code) : List Conflict :=
  match (inp.memberAt u).allowed_shift_codes with
  | none => []
  | some l => if c ∈ l then [] else [.allowedShift (inp.memberAt u).id (inp.dayStr d) c]

structure IntakeState where
  pinned : List ((Nat × Nat) × Code)
  conflicts : List Conflict
deriving Repr

/-- Dict lookup into the pinned-assignment map (first match; keys are unique
by construction, mirroring the Python dict). -/
def pinnedLookup (pinned : List ((Nat × Nat) × Code)) (u d : Nat) : Option Code :=
  (pinned.find? (fun e => decide (e.1 = (u, d)))).map (·.2)

/-- One step of the intake fold (source lines 330-372, one loop iteration). -/
def processExisting (inp : BuildInput) (st : IntakeState) (a : ExistingAssignment) : IntakeState :=
  match inp.memberIndexOf a.user_id, inp.dayIndexOf a.date with
  | some u, some d =>
    let st1 : IntakeState :=
      { st with conflicts := st.conflicts ++ allowedConflictsFor inp u d a.shift_code }
    match pinnedLookup st1.pinned u d with
    | some c =>
        if c ≠ a.shift_code then
          { st1 with conflicts := st1.conflicts ++
              [.existingAssignment (inp.memberAt u).id (inp.dayStr d) (sortCodes c a.shift_code)] }
        else st1
    | none => { st1 with pinned := st1.pinned ++ [((u, d), a.shift_code)] }
  | _, _ => st

def intakeState (inp : BuildInput) : IntakeState :=
  inp.existing_assignments.foldl (processExisting inp) ⟨[], []⟩

def pinnedOf (inp : BuildInput) : List ((Nat × Nat) × Code) := (intakeState inp).pinned

/-- `pinned_assignments.get((u, d))`. -/
def BuildInput.pinnedAt (inp : BuildInput) (u d : Nat) : Option Code :=
  pinnedLookup (pinnedOf inp) u d

/-- `fixed_requirements[(d, s)]` (source lines 371-372): how many pinned
assignments of code `s` fall on day `d`.  The source increments the counter
exactly when a new key enters the pinned map, so this equals a count over the
final pinned map. -/
def fixedRequirement (inp : BuildInput) (d : Nat) (s : Code) : Nat :=
  (pinnedOf inp).countP (fun e => decide (e.1.2 = d) && decide (e.2 = s))

/-!
## Derived configuration (source lines 218-304, 374-405, 693-724)
-/

/-- `allowed_shift_sets[u]` (source lines 374-383): the member's working
allow-list; OFF and NIGHT_AFTER are always added. -/
def allowedShiftSet (m : Member) : List Code :=
  match m.allowed_shift_codes with
  | none => WORK_SHIFT_CODES ++ [OFF, NIGHT_AFTER]
  | some l => l ++ [OFF, NIGHT_AFTER]

def memberAllows (m : Member) (c : Code) : Bool := decide (c ∈ allowedShiftSet m)

/-- `disallowed_codes` for one member (source lines 476-478). -/
def disallowedCodes (m : Member) : List Code :=
  WORK_SHIFT_CODES.filter (fun c => !(memberAllows m c))

/-- `holiday_flags[d]` (source lines 218-226), over canonical date strings. -/
def holidayFlag (inp : BuildInput) (d : Nat) : Bool :=
  inp.options.holiday_dates.contains (inp.dayStr d)

/-- Membership in `forced_off_days_by_member[u]` (source lines 385-405): a
truthy weekday key, the holiday key on a holiday, or a custom date off. -/
def isForcedOff (inp : BuildInput) (u d : Nat) : Bool :=
  let m := inp.memberAt u
  m.fixed_days_off.contains (inp.weekday_labels.getD d "")
  || (holidayFlag inp d && m.fixed_days_off.contains "holiday")
  || m.custom_dates_off.contains (inp.dayStr d)

/-- `required_per_shift` / `get_required` (source lines 272-283). -/
def baseRequired (inp : BuildInput) : Code → Nat
  | EARLY => inp.coverage.early
  | DAY => inp.coverage.day
  | LATE => inp.coverage.late
  | NIGHT => inp.coverage.night
  | _ => 0

/-- `day_requirements[s]` before the DAY-target override (source lines
414-421): `max(base, fixed)` on generation days, the pinned count alone on
carry-over days. -/
def preDayRequirement (inp : BuildInput) (d : Nat) (s : Code) : Nat :=
  if inp.isGenerationDay d then max (baseRequired inp s) (fixedRequirement inp d s)
  else fixedRequirement inp d s

/-- `desired_day_headcount` after parsing and clamping (source lines
284-294): the explicit constraint value, else the coverage payload's
`day_desired`, else the base DAY requirement; clamped to
`[base_day_required, num_members]`. -/
def desiredDayHeadcount (inp : BuildInput) : Nat :=
  let raw : Option Int :=
    match inp.options.desired_day_headcount with
    | some v => some v
    | none => inp.coverage.day_desired
  let parsed : Int :=
    match raw with
    | some v => v
    | none => (inp.coverage.day : Int)
  (max (inp.coverage.day : Int) (min parsed (inp.numMembers : Int))).toNat

/-- `required_other` for the DAY-target computation (source lines 431-433). -/
def requiredOther (inp : BuildInput) (d : Nat) : Nat :=
  preDayRequirement inp d EARLY + preDayRequirement inp d LATE + preDayRequirement inp d NIGHT

/-- `remaining_capacity` (source lines 434-438).  The source computes
`num_members - required_other` over Python ints; with truncated Nat
subtraction the subsequent `if remaining < required_day` correction yields the
same value, because a negative int difference is corrected to `required_day`
exactly when the truncated difference (0) is. -/
def remainingCapacity (inp : BuildInput) (d : Nat) : Nat :=
  let required_day := preDayRequirement inp d DAY
  let rc := inp.numMembers - requiredOther inp d
  if rc < required_day then required_day else min rc inp.numMembers

/-- `fixed_day_assignments` (source lines 440-442). -/
def fixedDayAssignments (inp : BuildInput) (d : Nat) : Nat :=
  (List.range inp.numMembers).countP (fun u => decide (inp.pinnedAt u d = some DAY))

/-- `flexible_day_capacity` (source lines 443-447). -/
def flexibleDayCapacity (inp : BuildInput) (d : Nat) : Nat :=
  (List.range inp.numMembers).countP
    (fun u => decide (inp.pinnedAt u d = none) && memberAllows (inp.memberAt u) DAY)

/-- `max_day_capacity` (source line 448). -/
def maxDayCapacity (inp : BuildInput) (d : Nat) : Nat :=
  max (preDayRequirement inp d DAY) (fixedDayAssignments inp d + flexibleDayCapacity inp d)

/-- `day_target` / `desired_day_per_day[d]` (source lines 424-452): on
generation days the DAY requirement is raised toward the desired headcount and
capped by both capacity bounds; on carry-over days it stays at the pinned
count. -/
def dayTarget (inp : BuildInput) (d : Nat) : Nat :=
  let required_day := preDayRequirement inp d DAY
  if inp.isGenerationDay d then
    min (min (max (desiredDayHeadcount inp) required_day) (remainingCapacity inp d))
      (maxDayCapacity inp d)
  else required_day

/-- `per_day_requirements[d][s]` as the coverage loop reads it (the DAY entry
was overridden to `day_target` on generation days, source line 451). -/
def perDayRequirement (inp : BuildInput) (d : Nat) (s : Code) : Nat :=
  if s = DAY then dayTarget inp d else preDayRequirement inp d s

/-- `min_off_by_type` / `default_min_off` resolution for one member
(source lines 260-265, 716). -/
def minOffResolved (inp : BuildInput) : MinOffResolution :=
  resolve_min_off inp.options.min_off_days inp.options.min_off_days_full_time
    inp.options.min_off_days_part_time inp.options.min_off_days_contract inp.numDays

/-- `required_off_days` for member `u` (source line 716). -/
def memberRequiredOffDays (inp : BuildInput) (u : Nat) : Int :=
  let r := minOffResolved inp
  match (inp.memberAt u).employment_type with
  | "full_time" => r.full_time
  | "part_time" => r.part_time
  | "contract" => r.contract
  | _ => r.base

/-- `max_consecutive_workdays` after parsing (source lines 295-304): positive
values are clamped to the horizon length, absent/non-positive disables the
rule. -/
def resolvedMaxConsecutive (inp : BuildInput) : Option Nat :=
  match inp.options.max_consecutive_workdays with
  | none => none
  | some k => if 0 < k then some (min k.toNat inp.numDays) else none

/-- `pinned_night_count` for member `u` (source lines 678-680). -/
def pinnedNightCount (inp : BuildInput) (u : Nat) : Nat :=
  (List.range inp.numDays).countP (fun d => decide (inp.pinnedAt u d = some NIGHT))

/-- `total_assignments` (source lines 698-703): non-DAY requirements plus the
per-day DAY target, summed over the horizon. -/
def totalAssignments (inp : BuildInput) : Nat :=
  ((List.range inp.numDays).map (fun d => requiredOther inp d + dayTarget inp d)).sum

/-- `target_work` (source line 704). -/
def targetWork (inp : BuildInput) : Nat :=
  if inp.numMembers = 0 then 0 else totalAssignments inp / inp.numMembers

/-- `target_off` (source lines 706-707); Python floor division over ints. -/
def targetOff (inp : BuildInput) : Int :=
  if inp.numMembers = 0 then 0
  else Int.fdiv ((inp.numDays : Int) * (inp.numMembers : Int) - (totalAssignments inp : Int))
    (inp.numMembers : Int)

/-!
## The constraint model (source lines 309-754)

A `ModelValuation` gives values to the decision variables the claims are about:
the boolean cube `x`, the coverage shortage variables, and the minimum-off
slack variables.  The remaining model variables (`work_flag`, `work_count`,
`work_diff`, the absolute-deviation variables and the constant
day-shortfall aliases) are forced by equality constraints to functions of
these, so they are represented by those functions; the only way their
presence can affect satisfiability is through their declared IntVar domains,
which the `balanceDomain` constraint captures.
-/

structure ModelValuation where
  x : Nat → Nat → Code → Bool
  shortage : Nat → Code → Nat
  offSlack : Nat → Nat

/-- Number of members assigned code `s` on day `d`. -/
def assignedCount (inp : BuildInput) (v : ModelValuation) (d : Nat) (s : Code) : Nat :=
  (List.range inp.numMembers).countP (fun u => v.x u d s)

/-- `work_flag` for (u, d) (source lines 518-522): whether some work code is
assigned; the variable equals the sum of the four work indicators, which the
single-assignment constraints keep at 0 or 1. -/
def workDayB (v : ModelValuation) (u d : Nat) : Bool :=
  WORK_SHIFT_CODES.any (fun s => v.x u d s)

/-- `off_count_expr` for member `u` (source line 713). -/
def offCountOf (inp : BuildInput) (v : ModelValuation) (u : Nat) : Nat :=
  (List.range inp.numDays).countP (fun d => v.x u d OFF)

/-- Solved NIGHT count for member `u` (source lines 691, 880-884). -/
def nightCountOf (inp : BuildInput) (v : ModelValuation) (u : Nat) : Nat :=
  (List.range inp.numDays).countP (fun d => v.x u d NIGHT)

/-- `work_count` for member `u`, forced to `num_days - off_count`
(source lines 726-728). -/
def workCountOf (inp : BuildInput) (v : ModelValuation) (u : Nat) : Nat :=
  inp.numDays - offCountOf inp v u

/-- The constraint forms `build_model` emits, in terms of the cells they
constrain. -/
inductive MConstraint where
  | exactlyOne (u d : Nat)
  | atMostOne (u d : Nat)
  | coverage (d : Nat) (s : Code) (required : Nat)
  | zeroCoverage (d : Nat) (s : Code)
  | pin (u d : Nat) (s : Code)
  | forbid (u d : Nat) (s : Code)
  | windowCap (u start cap : Nat)
  | leVar (u d : Nat) (s : Code) (d2 : Nat) (s2 : Code)
  | lateEarlyBan (u d : Nat)
  | repeatCap (u d : Nat) (s : Code)
  | nightQuota (u : Nat) (cap : Int)
  | offMin (u : Nat) (required : Int)
  | balanceDomain (u : Nat)
deriving DecidableEq, Repr

/-- Truth of one emitted constraint under a valuation.  `coverage` carries the
shortage variable's domain bound `[0, required]`; `offMin` carries the slack
domain `[0, num_days]`; `balanceDomain` carries the declared domains
`[-num_days, num_days]` of the two deviation variables (their absolute-value
counterparts' domains `[0, num_days]` are equivalent). -/
def evalConstraint (inp : BuildInput) (v : ModelValuation) : MConstraint → Bool
  | .exactlyOne u d => decide (SHIFT_CODES.countP (fun s => v.x u d s) = 1)
  | .atMostOne u d => decide (SHIFT_CODES.countP (fun s => v.x u d s) ≤ 1)
  | .coverage d s r =>
      decide (assignedCount inp v d s + v.shortage d s = r) && decide (v.shortage d s ≤ r)
  | .zeroCoverage d s => decide (assignedCount inp v d s = 0)
  | .pin u d s => v.x u d s
  | .forbid u d s => !(v.x u d s)
  | .windowCap u start cap =>
      decide ((List.range (cap + 1)).countP (fun t => workDayB v u (start + t)) ≤ cap)
  | .leVar u d s d2 s2 => !(v.x u d s) || v.x u d2 s2
  | .lateEarlyBan u d => !(v.x u d LATE && v.x u (d + 1) EARLY)
  | .repeatCap u d s =>
      decide ((if v.x u d s then 1 else 0) + (if v.x u (d + 1) s then 1 else 0)
        + (if v.x u (d + 2) s then 1 else 0) ≤ 2)
  | .nightQuota u cap => decide ((nightCountOf inp v u : Int) ≤ cap)
  | .offMin u req =>
      decide (req ≤ (offCountOf inp v u : Int) + (v.offSlack u : Int))
        && decide (v.offSlack u ≤ inp.numDays)
  | .balanceDomain u =>
      decide (-(inp.numDays : Int) ≤ (workCountOf inp v u : Int) - (targetWork inp : Int))
        && decide ((workCountOf inp v u : Int) - (targetWork inp : Int) ≤ (inp.numDays : Int))
        && decide (-(inp.numDays : Int) ≤ (offCountOf inp v u : Int) - targetOff inp)
        && decide ((offCountOf inp v u : Int) - targetOff inp ≤ (inp.numDays : Int))

/-- An emission item: a constraint handed to the solver, or a conflict record
appended instead of it. -/
abbrev EmitItem := MConstraint ⊕ Conflict

/-!
### Per-member rule emission (source lines 475-691, 712-724)

Each section mirrors one rule's loop, producing either the constraint the
rule encodes or the conflict record the source appends when pinned data
blocks the rule.
-/

/-- Eligibility filter (source lines 475-494): for each day and each
disallowed work code, a pinned occurrence records an `allowed_shift_conflict`,
otherwise the code is forbidden. -/
def eligItems (inp : BuildInput) (u : Nat) : List EmitItem :=
  let m := inp.memberAt u
  (List.range inp.numDays).flatMap (fun d =>
    (disallowedCodes m).map (fun c =>
      if inp.pinnedAt u d = some c then Sum.inr (.allowedShift m.id (inp.dayStr d) c)
      else Sum.inl (.forbid u d c)))

/-- Fixed day off (source lines 496-515): on each forced-off day, a pinned
non-OFF code records a `fixed_day_off_conflict`; otherwise OFF is pinned and
every other code forbidden. -/
def forcedOffItems (inp : BuildInput) (u : Nat) : List EmitItem :=
  let m := inp.memberAt u
  ((List.range inp.numDays).filter (fun d => isForcedOff inp u d)).flatMap (fun d =>
    match inp.pinnedAt u d with
    | some c =>
        if c ≠ OFF then [Sum.inr (.fixedDayOff m.id (inp.dayStr d) c)]
        else Sum.inl (.pin u d OFF)
          :: (SHIFT_CODES.filter (fun c2 => c2 ≠ OFF)).map (fun c2 => Sum.inl (.forbid u d c2))
    | none => Sum.inl (.pin u d OFF)
        :: (SHIFT_CODES.filter (fun c2 => c2 ≠ OFF)).map (fun c2 => Sum.inl (.forbid u d c2)))

/-- The scan over pinned runs (source lines 531-550): first day on which the
running count of consecutively pinned work days exceeds the cap, returned as
the run's (start, end) day indexes; the source `break`s there. -/
def pinnedRunViolation (inp : BuildInput) (u cap : Nat) : Option (Nat × Nat) :=
  ((List.range inp.numDays).foldl
    (fun (st : Nat × Option (Nat × Nat)) d =>
      match st.2 with
      | some _ => st
      | none =>
          let isWork :=
            match inp.pinnedAt u d with
            | some c => decide (c ∈ WORK_SHIFT_CODES)
            | none => false
          let run := if isWork then st.1 + 1 else 0
          if cap < run then (run, some (d + 1 - run, d)) else (run, none))
    (0, none)).2

/-- Consecutive-workday cap (source lines 517-550).  Note: the sliding-window
constraints are emitted unconditionally, before and independently of the
pinned-run scan; the scan only appends the conflict record. -/
def consecutiveItems (inp : BuildInput) (u : Nat) : List EmitItem :=
  match resolvedMaxConsecutive inp with
  | none => []
  | some cap =>
      let m := inp.memberAt u
      let windows : List EmitItem :=
        if cap + 1 ≤ inp.numDays then
          (List.range (inp.numDays - cap)).map (fun start => Sum.inl (.windowCap u start cap))
        else []
      let conflict : List EmitItem :=
        match pinnedRunViolation inp u cap with
        | some se =>
            [Sum.inr (.maxConsecutiveWorkdays m.id (inp.dayStr se.1) (inp.dayStr se.2) cap)]
        | none => []
      windows ++ conflict

/-- NIGHT_AFTER-predecessor rule (source lines 552-569), for days 1 to
`num_days - 1`. -/
def nightAfterPredItems (inp : BuildInput) (u : Nat) : List EmitItem :=
  let m := inp.memberAt u
  (List.range (inp.numDays - 1)).map (fun i =>
    let d := i + 1
    match inp.pinnedAt u d, inp.pinnedAt u (d - 1) with
    | some NIGHT_AFTER, some prev =>
        if prev ≠ NIGHT then
          Sum.inr (.nightAfterPredecessor m.id (inp.dayStr d) (inp.dayStr (d - 1)) prev)
        else Sum.inl (.leVar u d NIGHT_AFTER (d - 1) NIGHT)
    | _, _ => Sum.inl (.leVar u d NIGHT_AFTER (d - 1) NIGHT))

/-- Night rest sequencing (source lines 571-622), gated on
`enforce_night_after_rest`: NIGHT implies NIGHT_AFTER next day and OFF two
days later, each implication skipped (with a conflict) when pinned data
contradicts it. -/
def nightRestItems (inp : BuildInput) (u : Nat) : List EmitItem :=
  if !inp.options.enforce_night_after_rest then [] else
  let m := inp.memberAt u
  let loopA := (List.range (inp.numDays - 1)).map (fun d =>
    let cur := inp.pinnedAt u d
    let nxt := inp.pinnedAt u (d + 1)
    if cur = some NIGHT ∧ nxt.isSome ∧ nxt ≠ some NIGHT_AFTER then
      Sum.inr (.nightFollowUp m.id (inp.dayStr d) (inp.dayStr (d + 1)) (nxt.getD OFF))
    else if nxt = some NIGHT_AFTER ∧ cur.isSome ∧ cur ≠ some NIGHT then
      Sum.inr (.nightFollowUp m.id (inp.dayStr d) (inp.dayStr (d + 1)) (cur.getD OFF))
    else Sum.inl (.leVar u d NIGHT (d + 1) NIGHT_AFTER))
  let loopB := (List.range (inp.numDays - 2)).map (fun d =>
    let cur := inp.pinnedAt u d
    let rst := inp.pinnedAt u (d + 2)
    if cur = some NIGHT ∧ rst.isSome ∧ rst ≠ some OFF then
      Sum.inr (.nightRest m.id (inp.dayStr d) (inp.dayStr (d + 2)) (rst.getD OFF))
    else Sum.inl (.leVar u d NIGHT (d + 2) OFF))
  loopA ++ loopB

/-- Night eligibility (source lines 624-637): for a member who cannot work
nights, each day with a pinned NIGHT records a `night_eligibility_conflict`
and is otherwise left alone; every other day has both NIGHT and NIGHT_AFTER
forced to zero. -/
def nightEligibilityItems (inp : BuildInput) (u : Nat) : List EmitItem :=
  let m := inp.memberAt u
  if m.can_night_shift then [] else
  (List.range inp.numDays).flatMap (fun d =>
    if inp.pinnedAt u d = some NIGHT then [Sum.inr (.nightEligibility m.id (inp.dayStr d))]
    else [Sum.inl (.forbid u d NIGHT), Sum.inl (.forbid u d NIGHT_AFTER)])

/-- Late-to-early ban (source lines 639-655), gated on
`forbid_late_to_early`. -/
def lateToEarlyItems (inp : BuildInput) (u : Nat) : List EmitItem :=
  if !inp.options.forbid_late_to_early then [] else
  let m := inp.memberAt u
  (List.range (inp.numDays - 1)).map (fun d =>
    if inp.pinnedAt u d = some LATE ∧ inp.pinnedAt u (d + 1) = some EARLY then
      Sum.inr (.lateToEarly m.id (inp.dayStr d) (inp.dayStr (d + 1)))
    else Sum.inl (.lateEarlyBan u d))

/-- Repeat-run cap (source lines 657-676), gated on `limit_fulltime_repeat`
and full-time employment: three consecutive days all pinned to the same work
code record a `repeat_limit_conflict`; otherwise at most two of the three may
carry that code. -/
def repeatItems (inp : BuildInput) (u : Nat) : List EmitItem :=
  let m := inp.memberAt u
  if !(inp.options.limit_fulltime_repeat && m.employment_type == "full_time") then [] else
  WORK_SHIFT_CODES.flatMap (fun s =>
    (List.range (inp.numDays - 2)).map (fun d =>
      if inp.pinnedAt u d = some s ∧ inp.pinnedAt u (d + 1) = some s
          ∧ inp.pinnedAt u (d + 2) = some s then
        Sum.inr (.repeatLimit m.id (inp.dayStr d) s)
      else Sum.inl (.repeatCap u d s)))

/-- Night quota (source lines 678-691): when the pinned NIGHT count already
exceeds the quota, only the conflict is recorded; otherwise the quota
constraint is emitted. -/
def nightQuotaItems (inp : BuildInput) (u : Nat) : List EmitItem :=
  let m := inp.memberAt u
  if inp.options.max_nights_per_member < (pinnedNightCount inp u : Int) then
    [Sum.inr (.nightQuota m.id (pinnedNightCount inp u) inp.options.max_nights_per_member)]
  else [Sum.inl (.nightQuota u inp.options.max_nights_per_member)]

/-- Minimum days off and the balance-variable domains (source lines 712-740):
the off-count slack constraint exists only for a positive requirement. -/
def offMinItems (inp : BuildInput) (u : Nat) : List EmitItem :=
  (if 0 < memberRequiredOffDays inp u then [Sum.inl (.offMin u (memberRequiredOffDays inp u))]
   else []) ++ [Sum.inl (.balanceDomain u)]

/-- All per-member emission items, in source order. -/
def memberItems (inp : BuildInput) (u : Nat) : List EmitItem :=
  eligItems inp u ++ forcedOffItems inp u ++ consecutiveItems inp u
    ++ nightAfterPredItems inp u ++ nightRestItems inp u ++ nightEligibilityItems inp u
    ++ lateToEarlyItems inp u ++ repeatItems inp u ++ nightQuotaItems inp u
    ++ offMinItems inp u

/-- Single-assignment constraints (source lines 320-325): exactly one code on
generation days, at most one on carry-over days. -/
def singleAssignmentCons (inp : BuildInput) : List MConstraint :=
  (List.range inp.numMembers).flatMap (fun u =>
    (List.range inp.numDays).map (fun d =>
      if inp.isGenerationDay d then .exactlyOne u d else .atMostOne u d))

/-- Coverage constraints (source lines 454-469): for positive requirements a
shortage-slack equation, otherwise a zero-sum. -/
def coverageCons (inp : BuildInput) : List MConstraint :=
  (List.range inp.numDays).flatMap (fun d =>
    WORK_SHIFT_CODES.map (fun s =>
      if 0 < perDayRequirement inp d s then .coverage d s (perDayRequirement inp d s)
      else .zeroCoverage d s))

/-- Pinned assignments applied as equalities (source lines 471-473). -/
def pinCons (inp : BuildInput) : List MConstraint :=
  (pinnedOf inp).map (fun e => .pin e.1.1 e.1.2 e.2)

/-- Every hard constraint `build_model` hands to the solver, over the
variables a `ModelValuation` represents. -/
def buildConstraints (inp : BuildInput) : List MConstraint :=
  singleAssignmentCons inp ++ coverageCons inp ++ pinCons inp
    ++ (List.range inp.numMembers).flatMap (fun u =>
        (memberItems inp u).filterMap (fun it =>
          match it with
          | Sum.inl c => some c
          | Sum.inr _ => none))

/-- The conflict list as it stands when the model is handed to the solver
(the `off_requirement_shortfall` records are appended only after a successful
solve). -/
def buildConflicts (inp : BuildInput) : List Conflict :=
  (intakeState inp).conflicts
    ++ (List.range inp.numMembers).flatMap (fun u =>
        (memberItems inp u).filterMap (fun it =>
          match it with
          | Sum.inl _ => none
          | Sum.inr k => some k))

/-- A valuation satisfies the emitted model. -/
def satisfiesModel (inp : BuildInput) (v : ModelValuation) : Bool :=
  (buildConstraints inp).all (evalConstraint inp v)

/-!
## Objective (source lines 742-754)
-/

/-- `coverage_penalty` (source line 742). -/
def coverage_penalty : Nat := 100000

/-- `off_requirement_penalty` (source line 743). -/
def off_requirement_penalty : Nat := 1000

/-- `day_target_penalty` (source line 744). -/
def day_target_penalty : Nat := 5000

/-- Per-unit weight of the work-day deviation balance term (source line 752). -/
def balance_work_weight : Nat := 10

/-- Per-unit weight of the off-day deviation balance term (source line 752). -/
def balance_off_weight : Nat := 5

/-- `sum(shortage_vars.values())`: shortage variables exist exactly for the
(day, code) pairs with a positive requirement. -/
def totalShortageVal (inp : BuildInput) (v : ModelValuation) : Nat :=
  ((List.range inp.numDays).map (fun d =>
    (WORK_SHIFT_CODES.map (fun s =>
      if 0 < perDayRequirement inp d s then v.shortage d s else 0)).sum)).sum

/-- `sum(off_slack_vars)`: the slack is the constant 0 for non-positive
requirements (source lines 719-724). -/
def totalOffSlackVal (inp : BuildInput) (v : ModelValuation) : Nat :=
  ((List.range inp.numMembers).map (fun u =>
    if 0 < memberRequiredOffDays inp u then v.offSlack u else 0)).sum

/-- `sum(day_shortfall_vars.values())`: the DAY shortage where the DAY
requirement is positive, the constant 0 otherwise (source lines 464-469). -/
def totalDayShortfallVal (inp : BuildInput) (v : ModelValuation) : Nat :=
  ((List.range inp.numDays).map (fun d =>
    if 0 < perDayRequirement inp d DAY then v.shortage d DAY else 0)).sum

/-- `sum(abs_work_diffs)` (source lines 730-734). -/
def sumAbsWorkDiff (inp : BuildInput) (v : ModelValuation) : Nat :=
  ((List.range inp.numMembers).map (fun u =>
    ((workCountOf inp v u : Int) - (targetWork inp : Int)).natAbs)).sum

/-- `sum(abs_off_diffs)` (source lines 736-740). -/
def sumAbsOffDiff (inp : BuildInput) (v : ModelValuation) : Nat :=
  ((List.range inp.numMembers).map (fun u =>
    ((offCountOf inp v u : Int) - targetOff inp).natAbs)).sum

/-- The minimized objective (source lines 746-754): the balance terms are
appended only when `balance_workload` is enabled. -/
def objectiveValue (inp : BuildInput) (v : ModelValuation) : Nat :=
  coverage_penalty * totalShortageVal inp v
    + off_requirement_penalty * totalOffSlackVal inp v
    + day_target_penalty * totalDayShortfallVal inp v
    + (if inp.options.balance_workload then
        balance_work_weight * sumAbsWorkDiff inp v + balance_off_weight * sumAbsOffDiff inp v
      else 0)

/-!
## Solve status and output construction (source lines 756-897)

Transport (printing the JSON) is out of scope; we embed the output value
`build_model` constructs.  The source prints the success output and returns
the failure output, but both are the same structure.
-/

/-- The five CP-SAT statuses the adapter distinguishes (source lines
761-768). -/
inductive SolverStatus where
  | optimal | feasible | infeasible | invalid | unknown
deriving DecidableEq, Repr

/-- `status_map` labels (source lines 761-768). -/
def statusLabel : SolverStatus → String
  | .optimal => "optimal"
  | .feasible => "feasible"
  | .infeasible => "infeasible"
  | .invalid => "invalid"
  | .unknown => "unknown"

structure ShortageRecord where
  date : String
  shift_code : Code
  missing : Nat
deriving DecidableEq, Repr

structure DayCapacityShortfall where
  date : String
  shift_code : Code
  shortfall : Nat
  unused_capacity : Nat
  desired : Nat
deriving DecidableEq, Repr

/-- One day's `shifts` mapping; a slot with a single member is emitted as a
single JSON object and with several as a list, a distinction we flatten to
the member-id list. -/
structure DayShiftSlot where
  code : Code
  user_ids : List Int
deriving DecidableEq, Repr

structure DayAssignments where
  date : String
  shifts : List DayShiftSlot
deriving DecidableEq, Repr

structure SummaryOut where
  status : String
  work_days : List (Int × Nat)
  off_days : List (Int × Nat)
  nights : List (Int × Nat)
  shift_breakdown : List (Code × Nat)
  shortages : List ShortageRecord
  day_capacity_shortfalls : List DayCapacityShortfall
  constraint_conflicts : List Conflict
deriving DecidableEq, Repr

structure ScheduleOutput where
  assignments : List DayAssignments
  summary : SummaryOut
deriving DecidableEq, Repr

/-- Member ids whose indicator for (d, s) solved to 1 (source lines
794-797). -/
def assignedMemberIds (inp : BuildInput) (v : ModelValuation) (d : Nat) (s : Code) : List Int :=
  ((List.range inp.numMembers).filter (fun u => v.x u d s)).map (fun u => (inp.memberAt u).id)

/-- Carry-over pruning (source lines 806-820): on post-cutoff days,
NIGHT_AFTER keeps only members with a solved NIGHT the day before, OFF only
members with a solved NIGHT two days before, and every other code is
dropped. -/
def prunedAssigned (inp : BuildInput) (v : ModelValuation) (d : Nat) (s : Code) : List Int :=
  let base := assignedMemberIds inp v d s
  if inp.isGenerationDay d then base
  else
    match s with
    | NIGHT_AFTER =>
        if d = 0 then []
        else base.filter (fun uid => (assignedMemberIds inp v (d - 1) NIGHT).contains uid)
    | OFF =>
        if d ≤ 1 then []
        else base.filter (fun uid => (assignedMemberIds inp v (d - 2) NIGHT).contains uid)
    | _ => []

/-- `output_shift_codes` (source line 788). -/
def outputShiftCodes : List Code := WORK_SHIFT_CODES ++ [NIGHT_AFTER, OFF]

/-- One day of the assignments output (source lines 791-833); slots left
empty after pruning are skipped. -/
def dayEntryOf (inp : BuildInput) (v : ModelValuation) (d : Nat) : DayAssignments :=
  { date := inp.dayStr d,
    shifts := outputShiftCodes.filterMap (fun s =>
      let assigned := prunedAssigned inp v d s
      if assigned.isEmpty then none else some ⟨s, assigned⟩) }

/-- `unique_shift_users[s]` (source lines 789, 825-827): distinct members
assigned work code `s` on some day, after pruning. -/
def uniqueShiftUsers (inp : BuildInput) (v : ModelValuation) (s : Code) : List Int :=
  ((List.range inp.numDays).flatMap (fun d => prunedAssigned inp v d s)).dedup

/-- `shortages` output (source lines 835-843). -/
def shortagesOut (inp : BuildInput) (v : ModelValuation) : List ShortageRecord :=
  (List.range inp.numDays).flatMap (fun d =>
    WORK_SHIFT_CODES.filterMap (fun s =>
      if 0 < perDayRequirement inp d s ∧ 0 < v.shortage d s then
        some ⟨inp.dayStr d, s, v.shortage d s⟩
      else none))

/-- `day_capacity_shortfalls` output (source lines 845-857). -/
def dayShortfallsOut (inp : BuildInput) (v : ModelValuation) : List DayCapacityShortfall :=
  (List.range inp.numDays).filterMap (fun d =>
    let sf := if 0 < perDayRequirement inp d DAY then v.shortage d DAY else 0
    if 0 < sf then some ⟨inp.dayStr d, DAY, sf, sf, dayTarget inp d⟩ else none)

/-- `off_requirement_shortfall` conflicts appended after a successful solve
(source lines 859-872). -/
def offShortfallConflicts (inp : BuildInput) (v : ModelValuation) : List Conflict :=
  (List.range inp.numMembers).filterMap (fun u =>
    let req := memberRequiredOffDays inp u
    if 0 < req ∧ 0 < v.offSlack u then
      some (.offRequirementShortfall ((inp.memberAt u).id) (v.offSlack u) req)
    else none)

/-- The output constructed on an optimal/feasible solve (source lines
787-897). -/
def successOutput (inp : BuildInput) (v : ModelValuation) (label : String) : ScheduleOutput :=
  { assignments := (List.range inp.numDays).map (dayEntryOf inp v),
    summary :=
      { status := label,
        work_days := (List.range inp.numMembers).map (fun u =>
          ((inp.memberAt u).id, workCountOf inp v u)),
        off_days := (List.range inp.numMembers).map (fun u =>
          ((inp.memberAt u).id, offCountOf inp v u)),
        nights := (List.range inp.numMembers).map (fun u =>
          ((inp.memberAt u).id, nightCountOf inp v u)),
        shift_breakdown := WORK_SHIFT_CODES.map (fun s => (s, (uniqueShiftUsers inp v s).length)),
        shortages := shortagesOut inp v,
        day_capacity_shortfalls := dayShortfallsOut inp v,
        constraint_conflicts := buildConflicts inp ++ offShortfallConflicts inp v } }

/-- The output constructed when the status is not optimal/feasible (source
lines 770-785): empty assignments, empty shortage and shortfall lists, but
the conflict list accumulated during the build. -/
def failureOutput (inp : BuildInput) (label : String) : ScheduleOutput :=
  { assignments := [],
    summary :=
      { status := label,
        work_days := [],
        off_days := [],
        nights := [],
        shift_breakdown := WORK_SHIFT_CODES.map (fun s => (s, 0)),
        shortages := [],
        day_capacity_shortfalls := [],
        constraint_conflicts := buildConflicts inp } }

/-- Output dispatch on the solver status (source line 770). -/
def generateOutput (inp : BuildInput) (st : SolverStatus) (v : ModelValuation) : ScheduleOutput :=
  if st = .optimal ∨ st = .feasible then successOutput inp v (statusLabel st)
  else failureOutput inp (statusLabel st)

/-- `build_model` as a fallible computation: the only fatal path after
parsing is an empty member or day list (source lines 306-307); every solver
status produces a value. -/
def runBuild (inp : BuildInput) (st : SolverStatus) (v : ModelValuation) :
    Except String ScheduleOutput :=
  if inp.numMembers = 0 ∨ inp.numDays = 0 then .error "Members or days are empty"
  else .ok (generateOutput inp st v)

/-- The shortage recorded for (d, s): the shortage variable's solved value
where one exists (positive requirement), 0 otherwise (the `shortage_vars`
dict has no entry, so the output reports no shortage there). -/
def recordedShortage (inp : BuildInput) (v : ModelValuation) (d : Nat) (s : Code) : Nat :=
  if 0 < perDayRequirement inp d s then v.shortage d s else 0

/-!
## Concrete scenario inputs used by witnesses and counterexamples
-/

/-- A valuation assigning nothing anywhere (used where the solver's values
are irrelevant). -/
def vAny : ModelValuation := ⟨fun _ _ _ => false, fun _ _ => 0, fun _ => 0⟩

def daysC1 : List String :=
  ["2025-01-01", "2025-01-02", "2025-01-03", "2025-01-04", "2025-01-05", "2025-01-06"]

/-- One member, six days, `max_consecutive_workdays = 5`, and a pinned run of
six consecutive DAY assignments. -/
def inpC1 : BuildInput :=
  { members := [⟨1, "member", true, none, [], []⟩],
    days := daysC1,
    weekday_labels := ["wednesday", "thursday", "friday", "saturday", "sunday", "monday"],
    coverage := {},
    options := { max_consecutive_workdays := some 5 },
    existing_assignments := daysC1.map (fun dt => ⟨1, dt, DAY⟩) }

/-- One member without night eligibility, one day, a pinned NIGHT on it. -/
def inpC2w : BuildInput :=
  { members := [⟨1, "member", false, none, [], []⟩],
    days := ["2025-01-01"],
    weekday_labels := ["wednesday"],
    coverage := {},
    options := {},
    existing_assignments := [⟨1, "2025-01-01", NIGHT⟩] }

/-- The solution of `inpC2w` forced by the pin: NIGHT on the single day. -/
def vC2w : ModelValuation :=
  ⟨fun u d c => decide (u = 0) && decide (d = 0) && decide (c = NIGHT),
   fun _ _ => 0, fun _ => 0⟩

/-- One member, one day, no coverage targets, nothing pinned. -/
def inpC5a : BuildInput :=
  { members := [⟨1, "member", true, none, [], []⟩],
    days := ["2025-01-01"],
    weekday_labels := ["wednesday"],
    coverage := {},
    options := {},
    existing_assignments := [] }

/-- A valuation for `inpC5a` assigning NIGHT_AFTER on the first (and only)
day. -/
def vC5a : ModelValuation :=
  ⟨fun u d c => decide (u = 0) && decide (d = 0) && decide (c = NIGHT_AFTER),
   fun _ _ => 0, fun _ => 0⟩

/-- One member, two days, NIGHT coverage target 1. -/
def inpC5 : BuildInput :=
  { members := [⟨1, "member", true, none, [], []⟩],
    days := ["2025-01-01", "2025-01-02"],
    weekday_labels := ["wednesday", "thursday"],
    coverage := { night := 1 },
    options := {},
    existing_assignments := [] }

/-- A valuation for `inpC5`: NIGHT on day 0, NIGHT_AFTER on day 1, one unit
of NIGHT shortage on day 1. -/
def vC5 : ModelValuation :=
  ⟨fun u d c => decide (u = 0) &&
      ((decide (d = 0) && decide (c = NIGHT)) || (decide (d = 1) && decide (c = NIGHT_AFTER))),
   fun d s => if d = 1 ∧ s = NIGHT then 1 else 0,
   fun _ => 0⟩

/-- One member, one day, and two existing assignments for the same member and
date with different codes. -/
def inpC9w : BuildInput :=
  { members := [⟨1, "member", true, none, [], []⟩],
    days := ["2025-01-01"],
    weekday_labels := ["wednesday"],
    coverage := {},
    options := {},
    existing_assignments := [⟨1, "2025-01-01", DAY⟩, ⟨1, "2025-01-01", EARLY⟩] }

/-- One member whose explicit allow-list is `[DAY]`, one day, and a pinned
OFF assignment. -/
def inpC10 : BuildInput :=
  { members := [⟨1, "member", true, some [DAY], [], []⟩],
    days := ["2025-01-01"],
    weekday_labels := ["wednesday"],
    coverage := {},
    options := {},
    existing_assignments := [⟨1, "2025-01-01", OFF⟩] }

/-!
## Basic lemmas about the emitted model
-/

theorem eval_of_satisfies {inp : BuildInput} {v : ModelValuation} {c : MConstraint}
    (hs : satisfiesModel inp v = true) (hc : c ∈ buildConstraints inp) :
    evalConstraint inp v c = true :=
  List.all_eq_true.mp hs c hc

theorem constraint_mem_of_memberItem {inp : BuildInput} {u : Nat} {c : MConstraint}
    (hu : u < inp.numMembers) (h : Sum.inl c ∈ memberItems inp u) :
    c ∈ buildConstraints inp := by
  have hmem : c ∈ (List.range inp.numMembers).flatMap (fun u =>
      (memberItems inp u).filterMap (fun it =>
        match it with
        | Sum.inl c => some c
        | Sum.inr _ => none)) :=
    List.mem_flatMap.mpr ⟨u, List.mem_range.mpr hu, List.mem_filterMap.mpr ⟨Sum.inl c, h, rfl⟩⟩
  simp only [buildConstraints, List.mem_append]
  tauto

theorem conflict_mem_of_memberItem {inp : BuildInput} {u : Nat} {k : Conflict}
    (hu : u < inp.numMembers) (h : Sum.inr k ∈ memberItems inp u) :
    k ∈ buildConflicts inp := by
  have hmem : k ∈ (List.range inp.numMembers).flatMap (fun u =>
      (memberItems inp u).filterMap (fun it =>
        match it with
        | Sum.inl _ => none
        | Sum.inr k => some k)) :=
    List.mem_flatMap.mpr ⟨u, List.mem_range.mpr hu, List.mem_filterMap.mpr ⟨Sum.inr k, h, rfl⟩⟩
  simp only [buildConflicts, List.mem_append]
  tauto

theorem mem_memberItems_of_nightAfterPred {inp : BuildInput} {u : Nat} {it : EmitItem}
    (h : it ∈ nightAfterPredItems inp u) : it ∈ memberItems inp u := by
  simp only [memberItems, List.mem_append]
  tauto

theorem mem_memberItems_of_nightEligibility {inp : BuildInput} {u : Nat} {it : EmitItem}
    (h : it ∈ nightEligibilityItems inp u) : it ∈ memberItems inp u := by
  simp only [memberItems, List.mem_append]
  tauto

theorem coverage_constraint_mem (inp : BuildInput) {d : Nat} {s : Code}
    (hd : d < inp.numDays) (hs : s ∈ WORK_SHIFT_CODES) :
    (if 0 < perDayRequirement inp d s then
        MConstraint.coverage d s (perDayRequirement inp d s)
      else MConstraint.zeroCoverage d s) ∈ buildConstraints inp := by
  have hmem : (if 0 < perDayRequirement inp d s then
        MConstraint.coverage d s (perDayRequirement inp d s)
      else MConstraint.zeroCoverage d s) ∈ coverageCons inp := by
    simp only [coverageCons, List.mem_flatMap]
    exact ⟨d, List.mem_range.mpr hd, List.mem_map.mpr ⟨s, hs, rfl⟩⟩
  simp only [buildConstraints, List.mem_append]
  tauto

/-!
## Claim theorems
-/

/-- C7: for every start/end time pair (in minutes), the category inferred by
the source's time-pair branch is exactly the one given by the spec's ordered
precedence list: end-before-start ⇒ NIGHT, then end ≥ 20:00 ⇒ LATE, then
start ∈ [7:00, 7:30] ⇒ EARLY, then start ≥ 8:00 ∧ end ≤ 18:00 ⇒ DAY, then
start ≥ 15:00 ⇒ NIGHT, then start ∈ [6:00, 8:00) ⇒ EARLY, then
end ≥ 18:00 ⇒ LATE, else DAY. -/
theorem C7_infer_shift_category_precedence :
    ∀ startM endM : Nat,
      infer_shift_category_from_times startM endM = infer_shift_category_spec startM endM := by
  intro s e
  simp only [infer_shift_category_from_times, infer_shift_category_spec,
    inferShiftCategoryRules, firstMatch]
  norm_num [Bool.and_eq_true, decide_eq_true_eq]

theorem clampBounds (w : Int) (n : Nat) : 0 ≤ max 0 (min w n) ∧ max 0 (min w n) ≤ n := by
  refine ⟨le_max_left 0 _, max_le (Int.natCast_nonneg n) (min_le_right _ _)⟩

/-- C6 (amended): the resolution chain is full-time → general default,
part-time → general default when `min_off_days` was explicitly set else the
fixed fallback 10, contract → part-time's resolved value; every *explicitly
configured* value is clamped to `[0, number_of_days]`, while fallback values
pass through unclamped (so the fixed fallback 10 can exceed the horizon). -/
theorem C6_min_off_resolution (g ft pt ct : Option Int) (n : Nat) :
    ((resolve_min_off g ft pt ct n).base = clamp_min_off_days g 0 n
        ∧ 0 ≤ (resolve_min_off g ft pt ct n).base ∧ (resolve_min_off g ft pt ct n).base ≤ n)
      ∧ (ft = none → (resolve_min_off g ft pt ct n).full_time = (resolve_min_off g ft pt ct n).base)
      ∧ (∀ w, ft = some w → 0 ≤ (resolve_min_off g ft pt ct n).full_time
          ∧ (resolve_min_off g ft pt ct n).full_time ≤ n)
      ∧ (pt = none → g.isSome →
          (resolve_min_off g ft pt ct n).part_time = (resolve_min_off g ft pt ct n).base)
      ∧ (pt = none → g = none → (resolve_min_off g ft pt ct n).part_time = 10)
      ∧ (∀ w, pt = some w → 0 ≤ (resolve_min_off g ft pt ct n).part_time
          ∧ (resolve_min_off g ft pt ct n).part_time ≤ n)
      ∧ (ct = none → (resolve_min_off g ft pt ct n).contract = (resolve_min_off g ft pt ct n).part_time)
      ∧ (∀ w, ct = some w → 0 ≤ (resolve_min_off g ft pt ct n).contract
          ∧ (resolve_min_off g ft pt ct n).contract ≤ n) := by
  refine ⟨⟨rfl, ?_, ?_⟩, ?_, ?_, ?_, ?_, ?_, ?_, ?_⟩
  · cases g with
    | none => simp [resolve_min_off, clamp_min_off_days]
    | some w => exact (clampBounds w n).1
  · cases g with
    | none => simp [resolve_min_off, clamp_min_off_days]
    | some w => exact (clampBounds w n).2
  · intro h; subst h; rfl
  · intro w h; subst h
    exact clampBounds w n
  · intro hpt hg; subst hpt
    cases g with
    | none => simp at hg
    | some w => simp [resolve_min_off, clamp_min_off_days]
  · intro hpt hg; subst hpt; subst hg; rfl
  · intro w h; subst h
    exact clampBounds w n
  · intro h; subst h; rfl
  · intro w h; subst h
    exact clampBounds w n

/-- C6 counterexample: with a 5-day horizon and no configured minimums, the
resolved part-time minimum is the unclamped fallback 10, which exceeds
`number_of_days`: the claim that every resolved value is clamped to
`[0, number_of_days]` is false. -/
theorem C6_counterexample :
    (resolve_min_off none none none none 5).part_time = 10
      ∧ 5 < (resolve_min_off none none none none 5).part_time := by
  decide

/-- C6 witness. -/
theorem C6_witness :
    (0 ≤ (resolve_min_off (some 3) (some 20) (some 7) none 5).full_time
      ∧ (resolve_min_off (some 3) (some 20) (some 7) none 5).full_time ≤ 5)
    ∧ (resolve_min_off (some 3) (some 20) (some 7) none 5).contract
        = (resolve_min_off (some 3) (some 20) (some 7) none 5).part_time := by
  have h := C6_min_off_resolution (some 3) (some 20) (some 7) none 5
  exact ⟨h.2.2.1 20 rfl, h.2.2.2.2.2.2.1 rfl⟩

/-- C8: the per-unit penalty weights strictly decrease in the order coverage
shortage, day-shift target shortfall, minimum-off-days shortfall, then the
balance weights; the work-deviation weight is exactly twice the off-deviation
weight; and the balance terms enter the minimized objective only when
`balance_workload` is enabled. -/
theorem C8_objective_weights :
    day_target_penalty < coverage_penalty
      ∧ off_requirement_penalty < day_target_penalty
      ∧ balance_work_weight < off_requirement_penalty
      ∧ balance_off_weight < balance_work_weight
      ∧ balance_work_weight = 2 * balance_off_weight
      ∧ ∀ (inp : BuildInput) (v : ModelValuation),
          objectiveValue inp v =
            coverage_penalty * totalShortageVal inp v
              + off_requirement_penalty * totalOffSlackVal inp v
              + day_target_penalty * totalDayShortfallVal inp v
              + (if inp.options.balance_workload then
                  balance_work_weight * sumAbsWorkDiff inp v
                    + balance_off_weight * sumAbsOffDiff inp v
                else 0) :=
  ⟨by decide, by decide, by decide, by decide, by decide, fun _ _ => rfl⟩

/-- C1: with `max_consecutive_workdays = 5` and a pinned run of six
consecutive work-coded days, the builder does record the
`max_consecutive_workdays_conflict` naming the run's start date, end date and
the limit (stopping at the first violating run) — but it does *not* skip the
sliding-window constraint instances the pinned run contradicts: the windows
are emitted unconditionally alongside the pin equalities, so no valuation
satisfies the emitted model and the solver is handed an infeasible model,
contradicting the claim. -/
theorem C1_pinned_run_infeasible :
    buildConflicts inpC1 = [.maxConsecutiveWorkdays 1 "2025-01-01" "2025-01-06" 5]
      ∧ ∀ v : ModelValuation, satisfiesModel inpC1 v = false := by
  refine ⟨by decide, fun v => ?_⟩
  cases h : satisfiesModel inpC1 v with
  | false => rfl
  | true =>
    exfalso
    have hall : ∀ c ∈ buildConstraints inpC1, evalConstraint inpC1 v c = true :=
      List.all_eq_true.mp h
    have hx : ∀ d ∈ List.range 6, v.x 0 d DAY = true := by
      intro d hd
      have hd6 : d < 6 := List.mem_range.mp hd
      have hmem : MConstraint.pin 0 d DAY ∈ buildConstraints inpC1 := by
        interval_cases d <;> decide
      have hev := hall _ hmem
      simpa [evalConstraint] using hev
    have hwin : MConstraint.windowCap 0 0 5 ∈ buildConstraints inpC1 := by decide
    have hw := hall _ hwin
    simp only [evalConstraint, decide_eq_true_eq] at hw
    have hcount : (List.range (5 + 1)).countP (fun t => workDayB v 0 (0 + t))
        = (List.range (5 + 1)).length := by
      refine List.countP_eq_length.mpr ?_
      intro t ht
      have := hx t ht
      simp [workDayB, WORK_SHIFT_CODES, this]
    rw [List.length_range] at hcount
    omega

/-- C10 (amended): the eligibility filter restricts only work codes — OFF and
NIGHT_AFTER are unconditionally in every member's allowed set, the disallowed
set is a subset of the work codes, and every item the eligibility section
emits (zero-forcing constraint or `allowed_shift_conflict`) concerns a work
code.  (The intake path, by contrast, checks pinned codes against the raw
explicit list and can record an `allowed_shift_conflict` for OFF or
NIGHT_AFTER; see the counterexample.) -/
theorem C10_eligibility_scope (m : Member) :
    memberAllows m OFF = true ∧ memberAllows m NIGHT_AFTER = true
      ∧ (∀ c ∈ disallowedCodes m, c ∈ WORK_SHIFT_CODES)
      ∧ ∀ (inp : BuildInput) (u : Nat) (it : EmitItem), it ∈ eligItems inp u →
          ∃ d c, c ∈ WORK_SHIFT_CODES ∧
            (it = Sum.inl (.forbid u d c)
              ∨ it = Sum.inr (.allowedShift (inp.memberAt u).id (inp.dayStr d) c)) := by
  refine ⟨?_, ?_, ?_, ?_⟩
  · cases h : m.allowed_shift_codes <;> simp [memberAllows, allowedShiftSet, h]
  · cases h : m.allowed_shift_codes <;> simp [memberAllows, allowedShiftSet, h]
  · intro c hc
    exact (List.mem_filter.mp hc).1
  · intro inp u it hit
    simp only [eligItems, List.mem_flatMap, List.mem_map] at hit
    obtain ⟨d, _, c, hc, heq⟩ := hit
    have hcw : c ∈ WORK_SHIFT_CODES := (List.mem_filter.mp hc).1
    refine ⟨d, c, hcw, ?_⟩
    split at heq
    · right; exact heq.symm
    · left; exact heq.symm

/-- C10 counterexample: a member whose explicit allow-list is `[DAY]` with a
pinned OFF assignment gets an `allowed_shift_conflict` for OFF from the
intake check, so the claim that no `allowed_shift_conflict` is ever raised
for OFF or NIGHT_AFTER is false. -/
theorem C10_counterexample :
    Conflict.allowedShift 1 "2025-01-01" OFF ∈ buildConflicts inpC10
      ∧ (inpC10.memberAt 0).allowed_shift_codes = some [DAY] := by
  decide

/-- C10 witness. -/
theorem C10_witness :
    memberAllows ⟨1, "member", true, some [], [], []⟩ OFF = true
      ∧ EARLY ∈ WORK_SHIFT_CODES := by
  have h := C10_eligibility_scope ⟨1, "member", true, some [], [], []⟩
  exact ⟨h.1, h.2.2.1 EARLY (by decide)⟩

/-- C2 (amended): in every solved output, a member with
`can_night_shift = false` has NIGHT and NIGHT_AFTER forced to zero on every
day whose pinned code is not NIGHT; on a date pinned to NIGHT the
zero-forcing is skipped for that date and a `night_eligibility_conflict` is
recorded for that member and date.  (A pinned NIGHT_AFTER is not
conflict-checked: it falls in the first branch, whose zero-forcing then
contradicts the pin equality.) -/
theorem C2_night_eligibility (inp : BuildInput) (v : ModelValuation) (u d : Nat)
    (hu : u < inp.numMembers) (hd : d < inp.numDays)
    (hcn : (inp.memberAt u).can_night_shift = false)
    (hs : satisfiesModel inp v = true) :
    (inp.pinnedAt u d ≠ some NIGHT → v.x u d NIGHT = false ∧ v.x u d NIGHT_AFTER = false)
      ∧ (inp.pinnedAt u d = some NIGHT →
          Conflict.nightEligibility (inp.memberAt u).id (inp.dayStr d) ∈ buildConflicts inp) := by
  constructor
  · intro hpin
    have hsub : [Sum.inl (MConstraint.forbid u d NIGHT),
        Sum.inl (MConstraint.forbid u d NIGHT_AFTER)] ⊆ nightEligibilityItems inp u := by
      intro it hit
      simp only [nightEligibilityItems, hcn, Bool.false_eq_true, if_false, List.mem_flatMap]
      exact ⟨d, List.mem_range.mpr hd, by rw [if_neg hpin]; exact hit⟩
    constructor
    · have hc : MConstraint.forbid u d NIGHT ∈ buildConstraints inp :=
        constraint_mem_of_memberItem hu
          (mem_memberItems_of_nightEligibility (hsub (by simp)))
      have hev := eval_of_satisfies hs hc
      simpa [evalConstraint] using hev
    · have hc : MConstraint.forbid u d NIGHT_AFTER ∈ buildConstraints inp :=
        constraint_mem_of_memberItem hu
          (mem_memberItems_of_nightEligibility (hsub (by simp)))
      have hev := eval_of_satisfies hs hc
      simpa [evalConstraint] using hev
  · intro hpin
    refine conflict_mem_of_memberItem hu (mem_memberItems_of_nightEligibility ?_)
    simp only [nightEligibilityItems, hcn, Bool.false_eq_true, if_false, List.mem_flatMap]
    exact ⟨d, List.mem_range.mpr hd, by rw [if_pos hpin]; simp⟩

/-- C2 counterexample: `inpC2w` has a member with `can_night_shift = false`
and a pinned NIGHT; `vC2w` satisfies every emitted constraint (the
zero-forcing was skipped for the pinned date), yet it assigns NIGHT to that
member — so "never assigned NIGHT or NIGHT_AFTER on any day" is false for
solved outputs. -/
theorem C2_counterexample :
    (inpC2w.memberAt 0).can_night_shift = false
      ∧ satisfiesModel inpC2w vC2w = true
      ∧ vC2w.x 0 0 NIGHT = true := by
  decide

/-- C2 witness. -/
theorem C2_witness :
    Conflict.nightEligibility 1 "2025-01-01" ∈ buildConflicts inpC2w := by
  have h := C2_night_eligibility inpC2w vC2w 0 0 (by decide) (by decide) (by decide) (by decide)
  exact h.2 (by decide)

/-- C3: in every solved output, for every day and work code, the assigned
count plus the recorded shortage equals the effective requirement; on
carry-over days the effective requirement is the pinned count alone, on
generation days it is `max(base, pinned)` for non-DAY codes, and for DAY it
is at least `max(base, pinned)` and at most `max(desired, max(base, pinned))`
(raised toward the desired headcount, within the capacity caps). -/
theorem C3_coverage_accounting (inp : BuildInput) (v : ModelValuation) (d : Nat) (s : Code)
    (hd : d < inp.numDays) (hsw : s ∈ WORK_SHIFT_CODES) (hs : satisfiesModel inp v = true) :
    assignedCount inp v d s + recordedShortage inp v d s = perDayRequirement inp d s
      ∧ (inp.isGenerationDay d = false → perDayRequirement inp d s = fixedRequirement inp d s)
      ∧ (inp.isGenerationDay d = true → s ≠ DAY →
          perDayRequirement inp d s = max (baseRequired inp s) (fixedRequirement inp d s))
      ∧ (inp.isGenerationDay d = true → s = DAY →
          max (baseRequired inp s) (fixedRequirement inp d s) ≤ perDayRequirement inp d s
            ∧ perDayRequirement inp d s
                ≤ max (desiredDayHeadcount inp)
                    (max (baseRequired inp s) (fixedRequirement inp d s))) := by
  refine ⟨?_, ?_, ?_, ?_⟩
  · have hmem := coverage_constraint_mem inp hd hsw
    by_cases hr : 0 < perDayRequirement inp d s
    · rw [if_pos hr] at hmem
      have hev := eval_of_satisfies hs hmem
      simp only [evalConstraint, Bool.and_eq_true, decide_eq_true_eq] at hev
      rw [recordedShortage, if_pos hr]
      exact hev.1
    · rw [if_neg hr] at hmem
      have hev := eval_of_satisfies hs hmem
      simp only [evalConstraint, decide_eq_true_eq] at hev
      rw [recordedShortage, if_neg hr, hev]
      omega
  · intro hgen
    by_cases hsD : s = DAY
    · subst hsD
      simp [perDayRequirement, dayTarget, preDayRequirement, hgen]
    · simp [perDayRequirement, preDayRequirement, hsD, hgen]
  · intro hgen hsD
    simp [perDayRequirement, preDayRequirement, hsD, hgen]
  · intro hgen hsD
    subst hsD
    simp only [perDayRequirement, if_pos rfl, dayTarget, preDayRequirement, hgen, if_true]
    constructor
    · refine le_min (le_min (le_max_right _ _) ?_) ?_
      · rw [remainingCapacity]
        simp only [preDayRequirement, hgen, if_true]
        split
        · exact le_refl _
        · next hlt =>
          rw [min_eq_left (Nat.sub_le _ _)]
          exact Nat.not_lt.mp hlt
      · rw [maxDayCapacity]
        simp only [preDayRequirement, hgen, if_true]
        exact le_max_left _ _
    · calc min (min (max (desiredDayHeadcount inp)
              (max (baseRequired inp DAY) (fixedRequirement inp d DAY)))
            (remainingCapacity inp d)) (maxDayCapacity inp d)
          ≤ min (max (desiredDayHeadcount inp)
              (max (baseRequired inp DAY) (fixedRequirement inp d DAY)))
            (remainingCapacity inp d) := min_le_left _ _
        _ ≤ max (desiredDayHeadcount inp)
              (max (baseRequired inp DAY) (fixedRequirement inp d DAY)) := min_le_left _ _

/-- C3 witness. -/
theorem C3_witness :
    assignedCount inpC5 vC5 0 NIGHT + recordedShortage inpC5 vC5 0 NIGHT
      = perDayRequirement inpC5 0 NIGHT :=
  (C3_coverage_accounting inpC5 vC5 0 NIGHT (by decide) (by decide) (by decide)).1

/-- C4 (amended): whenever the solver returns a status other than optimal or
feasible, the program produces (non-fatally, as long as the member and day
lists are nonempty) an empty assignments list together with a summary
carrying the status label, empty shortage and day-capacity-shortfall lists —
but the constraint-conflict list carries the conflicts recorded while
building the model, which need not be empty. -/
theorem C4_failure_output (inp : BuildInput) (st : SolverStatus) (v : ModelValuation)
    (h1 : st ≠ SolverStatus.optimal) (h2 : st ≠ SolverStatus.feasible)
    (hm : inp.numMembers ≠ 0) (hd : inp.numDays ≠ 0) :
    runBuild inp st v = Except.ok
      { assignments := [],
        summary :=
          { status := statusLabel st,
            work_days := [], off_days := [], nights := [],
            shift_breakdown := WORK_SHIFT_CODES.map (fun s => (s, 0)),
            shortages := [], day_capacity_shortfalls := [],
            constraint_conflicts := buildConflicts inp } } := by
  rw [runBuild, if_neg (by tauto), generateOutput, if_neg (by tauto)]
  rfl

/-- C4 counterexample: on `inpC1` (which records a
`max_consecutive_workdays_conflict` during the build) an infeasible status
yields a summary whose constraint-conflict list is *not* empty, so the claim
that the status-only summary has an empty constraint-conflict list is
false. -/
theorem C4_counterexample :
    (generateOutput inpC1 SolverStatus.infeasible vAny).summary.constraint_conflicts
        = [.maxConsecutiveWorkdays 1 "2025-01-01" "2025-01-06" 5]
      ∧ (generateOutput inpC1 SolverStatus.infeasible vAny).assignments = []
      ∧ (generateOutput inpC1 SolverStatus.infeasible vAny).summary.shortages = []
      ∧ (generateOutput inpC1 SolverStatus.infeasible vAny).summary.day_capacity_shortfalls
        = [] := by
  decide

/-- C4 witness. -/
theorem C4_witness :
    runBuild inpC5a SolverStatus.unknown vAny = Except.ok
      { assignments := [],
        summary :=
          { status := "unknown",
            work_days := [], off_days := [], nights := [],
            shift_breakdown := [(EARLY, 0), (DAY, 0), (LATE, 0), (NIGHT, 0)],
            shortages := [], day_capacity_shortfalls := [],
            constraint_conflicts := [] } } := by
  have h := C4_failure_output inpC5a SolverStatus.unknown vAny
    (by decide) (by decide) (by decide) (by decide)
  exact h

/-- C5 (amended): in every solved output, for every member and every day
*after the first*, the NIGHT_AFTER indicator on day d is 1 only if the NIGHT
indicator on day d−1 is 1 or a `night_after_predecessor_conflict` was
recorded for that member and date.  (No such constraint is emitted for the
first day of the horizon; see the counterexample.) -/
theorem C5_night_after_predecessor (inp : BuildInput) (v : ModelValuation) (u d : Nat)
    (hu : u < inp.numMembers) (hd : d < inp.numDays) (h1 : 1 ≤ d)
    (hs : satisfiesModel inp v = true) (hna : v.x u d NIGHT_AFTER = true) :
    v.x u (d - 1) NIGHT = true
      ∨ ∃ c, Conflict.nightAfterPredecessor (inp.memberAt u).id
          (inp.dayStr d) (inp.dayStr (d - 1)) c ∈ buildConflicts inp := by
  obtain ⟨i, rfl⟩ : ∃ i, d = i + 1 := ⟨d - 1, by omega⟩
  have hi : i ∈ List.range (inp.numDays - 1) := List.mem_range.mpr (by omega)
  have hconstraint : Sum.inl (MConstraint.leVar u (i + 1) NIGHT_AFTER i NIGHT)
        ∈ nightAfterPredItems inp u
      ∨ ∃ c, Sum.inr (Conflict.nightAfterPredecessor (inp.memberAt u).id
          (inp.dayStr (i + 1)) (inp.dayStr i) c) ∈ nightAfterPredItems inp u := by
    rcases hp1 : inp.pinnedAt u (i + 1) with _ | c1
    · left
      refine List.mem_map.mpr ⟨i, hi, ?_⟩
      simp only [Nat.add_sub_cancel, hp1]
    · rcases hp0 : inp.pinnedAt u i with _ | c0
      · left
        refine List.mem_map.mpr ⟨i, hi, ?_⟩
        simp only [Nat.add_sub_cancel, hp1, hp0]
      · by_cases hc1 : c1 = NIGHT_AFTER
        · subst hc1
          by_cases hc0 : c0 = NIGHT
          · subst hc0
            left
            refine List.mem_map.mpr ⟨i, hi, ?_⟩
            simp only [Nat.add_sub_cancel, hp1, hp0]
            rfl
          · right
            refine ⟨c0, List.mem_map.mpr ⟨i, hi, ?_⟩⟩
            simp only [Nat.add_sub_cancel, hp1, hp0]
            rw [if_pos hc0]
        · left
          refine List.mem_map.mpr ⟨i, hi, ?_⟩
          simp only [Nat.add_sub_cancel, hp1, hp0]
          cases c1 <;> first | rfl | exact absurd rfl hc1
  rcases hconstraint with hcon | ⟨c, hcon⟩
  · left
    have hc : MConstraint.leVar u (i + 1) NIGHT_AFTER i NIGHT ∈ buildConstraints inp :=
      constraint_mem_of_memberItem hu (mem_memberItems_of_nightAfterPred hcon)
    have hev := eval_of_satisfies hs hc
    simp only [evalConstraint, hna, Bool.not_true, Bool.false_or] at hev
    simpa using hev
  · right
    exact ⟨c, conflict_mem_of_memberItem hu (mem_memberItems_of_nightAfterPred hcon)⟩

/-- C5 counterexample: on a one-day horizon with no pinned data, the
valuation assigning NIGHT_AFTER on the first day satisfies every emitted
constraint and no conflict is recorded — so the claim, which includes the
first day, is false: NIGHT_AFTER can be 1 on day 0 with no NIGHT on a prior
day and no `night_after_predecessor_conflict`. -/
theorem C5_counterexample :
    satisfiesModel inpC5a vC5a = true
      ∧ vC5a.x 0 0 NIGHT_AFTER = true
      ∧ buildConflicts inpC5a = [] := by
  decide

/-- C5 witness. -/
theorem C5_witness :
    vC5.x 0 0 NIGHT = true
      ∨ ∃ c, Conflict.nightAfterPredecessor 1 "2025-01-02" "2025-01-01" c
          ∈ buildConflicts inpC5 := by
  have h := C5_night_after_predecessor inpC5 vC5 0 1
    (by decide) (by decide) (by decide) (by decide) (by decide)
  exact h

theorem elig_no_existing {inp : BuildInput} {u : Nat} {k : Conflict}
    (h : Sum.inr k ∈ eligItems inp u) : isExistingAssignmentConflict k = false := by
  simp only [eligItems, List.mem_flatMap, List.mem_map] at h
  obtain ⟨d, _, c, _, heq⟩ := h
  split at heq
  · cases heq; rfl
  · cases heq

theorem forcedOff_no_existing {inp : BuildInput} {u : Nat} {k : Conflict}
    (h : Sum.inr k ∈ forcedOffItems inp u) : isExistingAssignmentConflict k = false := by
  simp only [forcedOffItems, List.mem_flatMap] at h
  obtain ⟨d, _, hin⟩ := h
  split at hin
  · split at hin
    · simp only [List.mem_singleton] at hin
      cases hin; rfl
    · simp only [List.mem_cons, List.mem_map] at hin
      rcases hin with heq | ⟨c2, _, heq⟩ <;> cases heq
  · simp only [List.mem_cons, List.mem_map] at hin
    rcases hin with heq | ⟨c2, _, heq⟩ <;> cases heq

theorem consecutive_no_existing {inp : BuildInput} {u : Nat} {k : Conflict}
    (h : Sum.inr k ∈ consecutiveItems inp u) : isExistingAssignmentConflict k = false := by
  simp only [consecutiveItems] at h
  split at h
  · simp at h
  · simp only [List.mem_append] at h
    rcases h with h | h
    · split at h
      · obtain ⟨st, _, heq⟩ := List.mem_map.mp h
        cases heq
      · simp at h
    · split at h
      · simp only [List.mem_singleton] at h
        cases h; rfl
      · simp at h

theorem nightAfterPred_no_existing {inp : BuildInput} {u : Nat} {k : Conflict}
    (h : Sum.inr k ∈ nightAfterPredItems inp u) : isExistingAssignmentConflict k = false := by
  simp only [nightAfterPredItems, List.mem_map] at h
  obtain ⟨i, _, heq⟩ := h
  split at heq
  · split at heq
    · cases heq; rfl
    · cases heq
  · cases heq

theorem nightRest_no_existing {inp : BuildInput} {u : Nat} {k : Conflict}
    (h : Sum.inr k ∈ nightRestItems inp u) : isExistingAssignmentConflict k = false := by
  simp only [nightRestItems] at h
  cases hg : inp.options.enforce_night_after_rest <;> rw [hg] at h
  · simp at h
  · simp only [Bool.not_true, Bool.false_eq_true, if_false, List.mem_append, List.mem_map] at h
    rcases h with ⟨d, _, heq⟩ | ⟨d, _, heq⟩
    · split at heq
      · cases heq; rfl
      · split at heq
        · cases heq; rfl
        · cases heq
    · split at heq
      · cases heq; rfl
      · cases heq

theorem nightEligibility_no_existing {inp : BuildInput} {u : Nat} {k : Conflict}
    (h : Sum.inr k ∈ nightEligibilityItems inp u) : isExistingAssignmentConflict k = false := by
  simp only [nightEligibilityItems] at h
  cases hg : (inp.memberAt u).can_night_shift <;> rw [hg] at h
  · simp only [Bool.false_eq_true, if_false, List.mem_flatMap] at h
    obtain ⟨d, _, hin⟩ := h
    split at hin
    · simp only [List.mem_singleton] at hin
      cases hin; rfl
    · simp only [List.mem_cons, List.not_mem_nil, or_false] at hin
      rcases hin with heq | heq <;> cases heq
  · simp at h

theorem lateToEarly_no_existing {inp : BuildInput} {u : Nat} {k : Conflict}
    (h : Sum.inr k ∈ lateToEarlyItems inp u) : isExistingAssignmentConflict k = false := by
  simp only [lateToEarlyItems] at h
  cases hg : inp.options.forbid_late_to_early <;> rw [hg] at h
  · simp at h
  · simp only [Bool.not_true, Bool.false_eq_true, if_false, List.mem_map] at h
    obtain ⟨d, _, heq⟩ := h
    split at heq
    · cases heq; rfl
    · cases heq

theorem repeat_no_existing {inp : BuildInput} {u : Nat} {k : Conflict}
    (h : Sum.inr k ∈ repeatItems inp u) : isExistingAssignmentConflict k = false := by
  simp only [repeatItems] at h
  cases hg : inp.options.limit_fulltime_repeat
      && (inp.memberAt u).employment_type == "full_time" <;> rw [hg] at h
  · simp at h
  · simp only [Bool.not_true, Bool.false_eq_true, if_false, List.mem_flatMap, List.mem_map] at h
    obtain ⟨s, _, d, _, heq⟩ := h
    split at heq
    · cases heq; rfl
    · cases heq

theorem nightQuota_no_existing {inp : BuildInput} {u : Nat} {k : Conflict}
    (h : Sum.inr k ∈ nightQuotaItems inp u) : isExistingAssignmentConflict k = false := by
  simp only [nightQuotaItems] at h
  split at h
  · simp only [List.mem_singleton] at h
    cases h; rfl
  · simp only [List.mem_singleton] at h
    cases h

theorem offMin_no_existing {inp : BuildInput} {u : Nat} {k : Conflict}
    (h : Sum.inr k ∈ offMinItems inp u) : isExistingAssignmentConflict k = false := by
  simp only [offMinItems, List.mem_append] at h
  rcases h with h | h
  · split at h
    · simp only [List.mem_singleton] at h
      cases h
    · simp at h
  · simp only [List.mem_singleton] at h
    cases h

/-- No per-member rule section ever records an `existing_assignment_conflict`;
those come only from the intake of `existing_assignments`. -/
theorem memberItems_no_existing {inp : BuildInput} {u : Nat} {k : Conflict}
    (h : Sum.inr k ∈ memberItems inp u) : isExistingAssignmentConflict k = false := by
  simp only [memberItems, List.mem_append] at h
  rcases h with ((((((((h | h) | h) | h) | h) | h) | h) | h) | h) | h
  · exact elig_no_existing h
  · exact forcedOff_no_existing h
  · exact consecutive_no_existing h
  · exact nightAfterPred_no_existing h
  · exact nightRest_no_existing h
  · exact nightEligibility_no_existing h
  · exact lateToEarly_no_existing h
  · exact repeat_no_existing h
  · exact nightQuota_no_existing h
  · exact offMin_no_existing h

theorem allowedConflictsFor_no_existing (inp : BuildInput) (u d : Nat) (c : Code) :
    (allowedConflictsFor inp u d c).filter isExistingAssignmentConflict = [] := by
  unfold allowedConflictsFor
  split
  · rfl
  · split <;> rfl

/-- C9: when `existing_assignments` holds two entries for the same valid
member and date with two different codes, exactly one
`existing_assignment_conflict` is recorded (its codes field lists both codes
in Python-sorted order), the second entry is ignored, and the first pinned
code is the one enforced as an equality in the model. -/
theorem C9_duplicate_pinned (inp : BuildInput) (a1 a2 : ExistingAssignment) (u d : Nat)
    (hlist : inp.existing_assignments = [a1, a2])
    (huid : a2.user_id = a1.user_id) (hdate : a2.date = a1.date)
    (hmi : inp.memberIndexOf a1.user_id = some u)
    (hdi : inp.dayIndexOf a1.date = some d)
    (hne : a1.shift_code ≠ a2.shift_code) :
    (buildConflicts inp).filter isExistingAssignmentConflict
        = [.existingAssignment (inp.memberAt u).id (inp.dayStr d)
            (sortCodes a1.shift_code a2.shift_code)]
      ∧ inp.pinnedAt u d = some a1.shift_code
      ∧ MConstraint.pin u d a1.shift_code ∈ buildConstraints inp := by
  have h1 : processExisting inp ⟨[], []⟩ a1
      = ⟨[((u, d), a1.shift_code)], allowedConflictsFor inp u d a1.shift_code⟩ := by
    simp only [processExisting, hmi, hdi]
    simp [pinnedLookup]
  have h2 : processExisting inp
        ⟨[((u, d), a1.shift_code)], allowedConflictsFor inp u d a1.shift_code⟩ a2
      = ⟨[((u, d), a1.shift_code)],
          allowedConflictsFor inp u d a1.shift_code
            ++ (allowedConflictsFor inp u d a2.shift_code
              ++ [.existingAssignment (inp.memberAt u).id (inp.dayStr d)
                  (sortCodes a1.shift_code a2.shift_code)])⟩ := by
    simp only [processExisting, huid, hdate, hmi, hdi]
    simp [pinnedLookup, List.find?, hne]
  have hintake : intakeState inp
      = ⟨[((u, d), a1.shift_code)],
          allowedConflictsFor inp u d a1.shift_code
            ++ (allowedConflictsFor inp u d a2.shift_code
              ++ [.existingAssignment (inp.memberAt u).id (inp.dayStr d)
                  (sortCodes a1.shift_code a2.shift_code)])⟩ := by
    rw [intakeState, hlist]
    simp only [List.foldl]
    rw [h1, h2]
  refine ⟨?_, ?_, ?_⟩
  · have hpart2 : ((List.range inp.numMembers).flatMap (fun u =>
        (memberItems inp u).filterMap (fun it =>
          match it with
          | Sum.inl _ => none
          | Sum.inr k => some k))).filter isExistingAssignmentConflict = [] := by
      refine List.filter_eq_nil_iff.mpr ?_
      intro k hk htrue
      obtain ⟨u2, _, hk2⟩ := List.mem_flatMap.mp hk
      obtain ⟨it, hit, hmat⟩ := List.mem_filterMap.mp hk2
      match it, hmat with
      | Sum.inr k0, hmat =>
        cases hmat
        rw [memberItems_no_existing hit] at htrue
        cases htrue
    rw [buildConflicts, List.filter_append, hpart2, List.append_nil, hintake]
    simp only [List.filter_append, allowedConflictsFor_no_existing, List.nil_append]
    rfl
  · rw [BuildInput.pinnedAt, pinnedOf, hintake]
    simp [pinnedLookup, List.find?]
  · have hp : MConstraint.pin u d a1.shift_code ∈ pinCons inp := by
      rw [pinCons, pinnedOf, hintake]
      simp
    simp only [buildConstraints, List.mem_append]
    tauto

/-- C9 witness. -/
theorem C9_witness :
    (buildConflicts inpC9w).filter isExistingAssignmentConflict
        = [.existingAssignment 1 "2025-01-01" [DAY, EARLY]]
      ∧ inpC9w.pinnedAt 0 0 = some DAY := by
  have h := C9_duplicate_pinned inpC9w ⟨1, "2025-01-01", DAY⟩ ⟨1, "2025-01-01", EARLY⟩ 0 0
    rfl rfl rfl (by decide) (by decide) (by decide)
  exact ⟨h.1, h.2.1⟩
